import Mathlib

/-!
Verification of the two code fragments in `notebooks/Matching Stuff.ipynb`:
the CoNLL-U line/document parser (`parse`, `parse_line`, `parse_int_value`,
`parse_dict_value`, `parse_nullable_value`) and the draft token matcher
(`Matcher.match`).

The Python code is shallowly embedded: strings are Lean `String`s, Python
`None`/exceptions become `Option`, left-to-right list comprehensions become
`optMapM`, and `OrderedDict` becomes an ordered association list with
update-in-place insertion (`odInsert`).  All definitions are structurally
recursive so that concrete runs reduce by `rfl`/`decide`.
-/

set_option autoImplicit false

namespace TextStuff

/-! ## String toolkit (models of the Python built-ins used by the source) -/

/-- Model of Python's whitespace set used by `str.strip()`:
space, tab, newline, carriage return, vertical tab, form feed. -/
def pyIsSpace (c : Char) : Bool :=
  c = ' ' || c = '\t' || c = '\n' || c = '\r' || c = '\x0b' || c = '\x0c'

/-- Model of Python `str.strip()`: drop leading and trailing whitespace. -/
def pyStrip (cs : List Char) : List Char :=
  ((cs.dropWhile pyIsSpace).reverse.dropWhile pyIsSpace).reverse

/-- Fuel-indexed worker for `pySplit`.  The fuel starts at the length of the
input, which suffices because every recursive call consumes at least one
character (the separator is nonempty at every use site). -/
def pySplitAux (sep : List Char) : Nat → List Char → List Char → List (List Char)
  | _, [], acc => [acc.reverse]
  | 0, cs, acc => [acc.reverse ++ cs]
  | fuel + 1, c :: cs, acc =>
    if sep.isPrefixOf (c :: cs) then
      acc.reverse :: pySplitAux sep fuel (cs.drop (sep.length - 1)) []
    else
      pySplitAux sep fuel cs (c :: acc)

/-- Model of Python `str.split(sep)` for a nonempty separator `sep`:
non-overlapping leftmost occurrences, empty pieces preserved,
`"".split(sep) = [""]`. -/
def pySplit (s sep : String) : List String :=
  (pySplitAux sep.data s.data.length s.data []).map List.asString

/-- Model of Python substring search (`needle in haystack`, `re.search` of a
literal): does the first list occur as a contiguous sublist of the second? -/
def pyContainsSub : List Char → List Char → Bool
  | needle, [] => needle.isEmpty
  | needle, c :: rest => needle.isPrefixOf (c :: rest) || pyContainsSub needle rest

/-- Left-to-right `mapM` into `Option`; `none` models the first raised
exception propagating out of a Python list comprehension. -/
def optMapM {α β : Type} (f : α → Option β) : List α → Option (List β)
  | [] => some []
  | a :: as => (f a).bind fun b => (optMapM f as).bind fun bs => some (b :: bs)

/-- Decimal value of a digit string, as computed by Python `int(...)` on a
string of decimal digits. -/
def digitsToNat : List Char → Nat → Nat
  | [], acc => acc
  | c :: cs, acc => digitsToNat cs (acc * 10 + (c.toNat - 48))

/-- Model of Python `str.isdigit()` (restricted to ASCII decimal digits):
nonempty and every character a digit. -/
def pyIsDigitStr (s : String) : Bool :=
  !s.data.isEmpty && s.data.all Char.isDigit

/-! ## CoNLL-U parser (notebook cell 12, adapted from conllu) -/

/-- Decoded value of one CoNLL-U column, mirroring the Python value domain:
an `int`, a `str`, an `OrderedDict` of key to nullable string, or `None`. -/
inductive Value where
  | vint (n : Nat)
  | vstr (s : String)
  | vdict (entries : List (String × Option String))
  | vnone
deriving DecidableEq

/-- A decoded line: the `OrderedDict` from field name to decoded value. -/
abbrev PRecord := List (String × Value)

/-- The ten standard field names, exactly `DEFAULT_FIELDS` in the source. -/
def DEFAULT_FIELDS : List String :=
  ["id", "form", "lemma", "upostag", "xpostag", "feats", "head", "deprel", "deps", "misc"]

/-- Fuel-indexed worker for `splitFields`.  Transcribes
`re.split(r"\t| {2,}", line)`: a tab, or a maximal run of two or more
spaces, separates columns; a single space does not. -/
def splitFieldsAux : Nat → List Char → List Char → List (List Char)
  | _, [], acc => [acc.reverse]
  | 0, cs, acc => [acc.reverse ++ cs]
  | fuel + 1, '\t' :: rest, acc => acc.reverse :: splitFieldsAux fuel rest []
  | fuel + 1, ' ' :: rest, acc =>
    match rest with
    | ' ' :: _ => acc.reverse :: splitFieldsAux fuel (rest.dropWhile (fun c => c = ' ')) []
    | _ => splitFieldsAux fuel rest (' ' :: acc)
  | fuel + 1, c :: rest, acc => splitFieldsAux fuel rest (c :: acc)

/-- The column split performed by `parse_line`:
`line = re.split(r"\t| {2,}", line)`. -/
def splitFields (line : String) : List String :=
  (splitFieldsAux line.data.length line.data []).map List.asString

/-- Transcribes `parse_int_value`: `int(value)` if `value.isdigit()`,
else `None`. -/
def parse_int_value (value : String) : Value :=
  if pyIsDigitStr value then .vint (digitsToNat value.data 0) else .vnone

/-- Transcribes `parse_nullable_value`: `None` if the value is empty or the
placeholder underscore, else the value unchanged. -/
def parse_nullable_value (value : String) : Option String :=
  if value = "" || value = "_" then none else some value

/-- The nullable result stored as a column `Value`. -/
def nullableValue (value : String) : Value :=
  match parse_nullable_value value with
  | none => .vnone
  | some s => .vstr s

/-- Transcribes `parse_dict_value`.  If the value contains an equals sign,
each pipe-separated part is decoded as `(part.split("=")[0],
parse_nullable_value(part.split("=")[1]))`; the index `[1]` raises
`IndexError` when a part has no equals sign, modelled by the outer `none`.
Otherwise the nullable rule applies to the whole value. -/
def parse_dict_value (value : String) : Option Value :=
  if value.data.contains '=' then
    match optMapM (fun part =>
      match pySplit part "=" with
      | k :: v :: _ => some (k, parse_nullable_value v)
      | _ => none) (pySplit value "|") with
    | some entries => some (.vdict entries)
    | none => none
  else
    some (nullableValue value)

/-- The field dispatch inside `parse_line`'s loop, in source order:
`id`/`head` integer, `xpostag`/`deps` nullable, `feats`/`misc` dict,
anything else the raw column unchanged. -/
def decodeField (field value : String) : Option Value :=
  if field = "id" then some (parse_int_value value)
  else if field = "xpostag" then some (nullableValue value)
  else if field = "feats" then parse_dict_value value
  else if field = "head" then some (parse_int_value value)
  else if field = "deps" then some (nullableValue value)
  else if field = "misc" then parse_dict_value value
  else some (.vstr value)

/-- `OrderedDict.__setitem__`: an existing key keeps its position and gets
the new value, a new key is appended at the end. -/
def odInsert (data : PRecord) (key : String) (v : Value) : PRecord :=
  if data.any (fun p => p.1 = key) then
    data.map (fun p => if p.1 = key then (p.1, v) else p)
  else
    data ++ [(key, v)]

/-- The loop of `parse_line` over the field/column pairs: decode each column
for its field and store it in the ordered dict; a decoding exception
(`none`) propagates. -/
def parse_line_go : List (String × String) → PRecord → Option PRecord
  | [], data => some data
  | (field, raw) :: rest, data =>
    match decodeField field raw with
    | none => none
    | some v => parse_line_go rest (odInsert data field v)

/-- Transcribes `parse_line`: split the line into columns, then walk the
field names in order, stopping at the shorter of the two lists (the
`if i >= len(line): break` guard, here `List.zip`). -/
def parse_line (line : String) (fields : List String) : Option PRecord :=
  parse_line_go (fields.zip (splitFields line)) []

/-- Python truthiness filter `if line` composed with
`not line.strip().startswith("#")` from the comprehension in `parse`. -/
def keepLine (line : String) : Bool :=
  line != "" && !(['#'].isPrefixOf (pyStrip line.data))

/-- The inner comprehension of `parse`: parse every kept line of one
blank-line-separated sentence block. -/
def parseSentence (sentence : String) (fields : List String) : Option (List PRecord) :=
  optMapM (fun line => parse_line line fields) ((pySplit sentence "\n").filter keepLine)

/-- Transcribes `parse`: split the text on blank lines into sentence
blocks, keep the truthy (non-empty) blocks, and parse each block's lines. -/
def parse (text : String) (fields : List String) : Option (List (List PRecord)) :=
  optMapM (fun sentence => parseSentence sentence fields)
    ((pySplit text "\n\n").filter (fun s => s != ""))

/-- Well-formedness of a raw column for dict decoding: whenever the column
contains an equals sign, every pipe-separated part splits on the equals
sign into at least two pieces (that is, the part itself contains one). -/
abbrev dictWf (value : String) : Prop :=
  value.data.contains '=' = true →
  ∀ part ∈ pySplit value "|", 2 ≤ (pySplit part "=").length

/-! ## Matcher (notebook cell 6) -/

/-- Attribute values carried by a token, mirroring the Python values the
notebook inspects (strings such as part-of-speech tags, ints, bools). -/
inductive PyVal where
  | str (s : String)
  | int (n : Int)
  | bool (b : Bool)
deriving DecidableEq

/-- A token: a surface text and named attributes, the two things
`Matcher.match` reads (`tok.text` and `tok.__getattr__(attr)`). -/
structure Token where
  text : String
  attrs : List (String × PyVal)
deriving DecidableEq

/-- The Python errors the matcher can raise: `AttributeError` from
`tok.__getattr__` on a missing name, `NameError` from the undefined
variable `arg`, `ValueError` from unpacking a dict key. -/
inductive PyErr where
  | attributeNotFound (name : String)
  | nameError
  | valueError
deriving DecidableEq

/-- A global pattern, one constructor per duck-typed class the source
dispatches on: `None`, a bool, a callable, a compiled text pattern (a
value with a `match` attribute), an iterable of tokens, and any other
non-iterable literal (the equality fallback). -/
inductive GPat where
  | absent
  | boolean (b : Bool)
  | pred (f : Token → Bool)
  | regex (needle : String)
  | mem (s : List Token)
  | lit (v : Token)

/-- An attribute pattern: the same dispatch, tested against the attribute
value; `lit` covers non-callable, non-iterable literals (ints, bools). -/
inductive APat where
  | pred (f : PyVal → Bool)
  | regex (needle : String)
  | mem (s : List PyVal)
  | lit (v : PyVal)

/-- Python `str(x)` for the attribute values. -/
def pyStr : PyVal → String
  | .str s => s
  | .int n => toString n
  | .bool b => if b then "True" else "False"

/-- `tok.__getattr__(attr)`: the attribute value, or `AttributeError`
(uncaught in the source, so it propagates). -/
def lookupAttr (t : Token) (name : String) : Except PyErr PyVal :=
  match List.lookup name t.attrs with
  | some v => .ok v
  | none => .error (.attributeNotFound name)

/-- One global pattern test, as the `Matcher` docstring specifies.
Compiled text patterns are modelled as literal-substring search
(`pat.search` succeeding somewhere in the text), the only compiled-pattern
behaviour the claims exercise. -/
def gpatSatisfied (t : Token) : GPat → Bool
  | .absent => false
  | .boolean b => b
  | .pred f => f t
  | .regex needle => pyContainsSub needle.data t.text.data
  | .mem s => s.contains t
  | .lit v => t == v

/-- The global loop of `Matcher.match`: the first unsatisfied pattern
returns false. -/
def matchGlobals (t : Token) : List GPat → Bool
  | [] => true
  | p :: rest => if gpatSatisfied t p then matchGlobals t rest else false

/-- One attribute pattern test against a resolved value, per the
docstring. -/
def apatSatisfied (v : PyVal) : APat → Bool
  | .pred f => f v
  | .regex needle => pyContainsSub needle.data (pyStr v).data
  | .mem s => s.contains v
  | .lit w => v == w

/-- The attribute loop of `Matcher.match`: resolve each named attribute in
insertion order (a missing one raises, and the error propagates) and test
its pattern; the first failure returns false. -/
def matchAttrs (t : Token) : List (String × APat) → Except PyErr Bool
  | [] => .ok true
  | (name, p) :: rest =>
    match lookupAttr t name with
    | .error e => .error e
    | .ok v => if apatSatisfied v p then matchAttrs t rest else .ok false

/-- Modelled from the spec: the intended `Matcher.match` of spec section
4.1, which is also the dispatch table in the source's own docstring —
global patterns in order, then attribute patterns in insertion order, true
when every pattern is satisfied.  The cell as written is not runnable (a
`def` whose inner functions are never invoked, an undefined name `arg` in
the compiled-pattern branches, and an attribute mapping iterated as if it
yielded key/value pairs); the spec's design notes call those transcription
bugs and give this as the clearly-intended semantics.  The literal control
flow, bugs included, is `matchLit` below. -/
def matchSpec (t : Token) (gpats : List GPat) (apats : List (String × APat)) :
    Except PyErr Bool :=
  if matchGlobals t gpats then matchAttrs t apats else .ok false

/-- One iteration of the literal global loop, exactly as the cell is
written.  `boolean true` passes the `bool` test but, because the second
dispatch chain starts with `if` rather than `elif`, falls through to the
equality fallback `tok != pat`, which is true for a token compared with a
bool, so the loop returns false for every bool pattern.  A compiled
pattern reaches `arg.search(tok.text)` with `arg` undefined: `NameError`. -/
def gpatLitStep (t : Token) : GPat → Except PyErr Bool
  | .absent => .ok false
  | .boolean _ => .ok false
  | .pred f => .ok (f t)
  | .regex _ => .error .nameError
  | .mem s => .ok (s.contains t)
  | .lit v => .ok (t == v)

/-- The literal global loop: short-circuit on the first error or
unsatisfied pattern. -/
def matchLitGlobals (t : Token) : List GPat → Except PyErr Bool
  | [] => .ok true
  | p :: rest =>
    match gpatLitStep t p with
    | .error e => .error e
    | .ok false => .ok false
    | .ok true => matchLitGlobals t rest

/-- The literal attribute loop.  `for attr, pat in self._attr_patterns`
iterates the keys of the keyword dict and unpacks each key string: a
two-character key unpacks into two characters and then reaches
`hasattr(arg, 'match')` with `arg` undefined (`NameError`); any other key
fails to unpack (`ValueError`).  Only an empty mapping completes. -/
def matchLitAttrs : List (String × APat) → Except PyErr Bool
  | [] => .ok true
  | (name, _) :: _ =>
    if name.length = 2 then .error .nameError else .error .valueError

/-- `Matcher.match` exactly as the cell is written, with the enclosing
`tok` that the body reads identified with the token under test: the global
loop, then the attribute loop, then true. -/
def matchLit (t : Token) (gpats : List GPat) (apats : List (String × APat)) :
    Except PyErr Bool :=
  match matchLitGlobals t gpats with
  | .error e => .error e
  | .ok false => .ok false
  | .ok true => matchLitAttrs apats

/-- A sample token for concrete evaluations: the word "fox" tagged as a
noun. -/
def demoToken : Token := ⟨"fox", [("pos", PyVal.str "NOUN")]⟩

/-! ## Helper lemmas -/

theorem optMapM_isSome {α β : Type} (f : α → Option β) (l : List α)
    (h : ∀ a ∈ l, (f a).isSome = true) : (optMapM f l).isSome = true := by
  induction l with
  | nil => rfl
  | cons a as ih =>
    rcases Option.isSome_iff_exists.mp (h a (by simp)) with ⟨b, hb⟩
    rcases Option.isSome_iff_exists.mp (ih (fun x hx => h x (by simp [hx]))) with ⟨bs, hbs⟩
    simp [optMapM, hb, hbs]

theorem optMapM_mem {α β : Type} (f : α → Option β) {l : List α} {ys : List β}
    {a : α} {b : β} (hl : optMapM f l = some ys) (ha : a ∈ l) (hfa : f a = some b) :
    b ∈ ys := by
  induction l generalizing ys with
  | nil => cases ha
  | cons x xs ih =>
    simp only [optMapM, Option.bind_eq_some, Option.some.injEq] at hl
    rcases hl with ⟨bx, hbx, bs, hbs, heq⟩
    subst heq
    rcases List.mem_cons.mp ha with rfl | hmem
    · rw [hfa] at hbx
      injection hbx with hbx
      subst hbx
      exact List.mem_cons_self _ _
    · exact List.mem_cons_of_mem _ (ih hbs hmem)

theorem parse_dict_value_isSome (value : String) (h : dictWf value) :
    (parse_dict_value value).isSome = true := by
  unfold parse_dict_value
  by_cases hc : value.data.contains '=' = true
  · rw [if_pos hc]
    have hm : (optMapM (fun part =>
        match pySplit part "=" with
        | k :: v :: _ => some (k, parse_nullable_value v)
        | _ => none) (pySplit value "|")).isSome = true := by
      apply optMapM_isSome
      intro part hpart
      have h2 := h hc part hpart
      cases hsp : pySplit part "=" with
      | nil => rw [hsp] at h2; simp at h2
      | cons k t =>
        cases t with
        | nil => rw [hsp] at h2; simp at h2
        | cons v rest => rfl
    rcases Option.isSome_iff_exists.mp hm with ⟨entries, he⟩
    rw [he]
    rfl
  · rw [if_neg hc]
    rfl

theorem decodeField_isSome (field value : String)
    (h : field = "feats" ∨ field = "misc" → dictWf value) :
    (decodeField field value).isSome = true := by
  unfold decodeField
  split_ifs with h1 h2 h3 h4 h5 h6
  · rfl
  · rfl
  · exact parse_dict_value_isSome value (h (Or.inl h3))
  · rfl
  · rfl
  · exact parse_dict_value_isSome value (h (Or.inr h6))
  · rfl

theorem parse_line_go_isSome (pairs : List (String × String))
    (h : ∀ fr ∈ pairs, (decodeField fr.1 fr.2).isSome = true) :
    ∀ data, (parse_line_go pairs data).isSome = true := by
  induction pairs with
  | nil => intro data; rfl
  | cons fr rest ih =>
    intro data
    obtain ⟨f, raw⟩ := fr
    rcases Option.isSome_iff_exists.mp (h (f, raw) (by simp)) with ⟨v, hv⟩
    simp only [parse_line_go, hv]
    exact ih (fun x hx => h x (by simp [hx])) _

theorem zip_map_fst {α β : Type} (l1 : List α) (l2 : List β) :
    (l1.zip l2).map Prod.fst = l1.take l2.length := by
  induction l1 generalizing l2 with
  | nil => simp
  | cons a t ih =>
    cases l2 with
    | nil => simp
    | cons b t2 => simp [ih]

theorem parse_line_go_keys (pairs : List (String × String)) :
    ∀ data rec : PRecord,
      (pairs.map Prod.fst).Nodup →
      (∀ k ∈ pairs.map Prod.fst, ∀ p ∈ data, p.1 ≠ k) →
      parse_line_go pairs data = some rec →
      rec.map Prod.fst = data.map Prod.fst ++ pairs.map Prod.fst := by
  induction pairs with
  | nil =>
    intro data rec _ _ hgo
    simp only [parse_line_go] at hgo
    injection hgo with h
    subst h
    simp
  | cons fr rest ih =>
    intro data rec hnd hdis hgo
    obtain ⟨f, raw⟩ := fr
    simp only [parse_line_go] at hgo
    split at hgo
    · exact Option.noConfusion hgo
    · rename_i v hv
      have hfnew : ∀ p ∈ data, p.1 ≠ f := fun p hp => hdis f (by simp) p hp
      have hcond : ¬((data.any fun p => decide (p.1 = f)) = true) := by
        simp only [List.any_eq_true, decide_eq_true_eq, not_exists]
        intro p
        rintro ⟨hp, hpf⟩
        exact hfnew p hp hpf
      have hod : odInsert data f v = data ++ [(f, v)] := by
        unfold odInsert
        rw [if_neg hcond]
      rw [hod] at hgo
      have hnd' : f ∉ rest.map Prod.fst ∧ (rest.map Prod.fst).Nodup := by
        rw [List.map_cons, List.nodup_cons] at hnd
        exact hnd
      have hres := ih (data ++ [(f, v)]) rec hnd'.2 ?_ hgo
      · rw [hres]
        simp
      · intro k hk p hp
        rcases List.mem_append.mp hp with hin | hone
        · exact hdis k (by simp [hk]) p hin
        · have hpf : p = (f, v) := by simpa using hone
          subst hpf
          intro hfk
          have hf : f = k := hfk
          exact hnd'.1 (hf ▸ hk)

/-! ## Parser claims -/

/-- C1 (corrected): the claim that every field decoder is total is false;
`parse_dict_value "Case=Nom|Bad"` evaluates the Python expression
`"Bad".split("=")[1]`, which raises `IndexError` (modelled by `none`). -/
theorem c1_decoding_total_counterexample :
    parse_dict_value "Case=Nom|Bad" = none := by decide

/-- C1 (amended): `parse_int_value` and `parse_nullable_value` are total by
construction; `parse_dict_value`, and hence `parse_line`, raises no error
provided every dict-decoded column that contains an equals sign has one in
each pipe-separated part; such columns decode to exactly one value or None. -/
theorem c1_decoding_total_amended :
    (∀ value : String, dictWf value → (parse_dict_value value).isSome = true)
    ∧ (∀ (line : String) (fields : List String),
        (∀ fr ∈ fields.zip (splitFields line),
          fr.1 = "feats" ∨ fr.1 = "misc" → dictWf fr.2) →
        (parse_line line fields).isSome = true) := by
  refine ⟨parse_dict_value_isSome, ?_⟩
  intro line fields h
  unfold parse_line
  exact parse_line_go_isSome _ (fun fr hfr => decodeField_isSome fr.1 fr.2 (h fr hfr)) []

/-- C1 witness: the amended totality applied to a well-formed dict column
and to a well-formed five-column line. -/
theorem c1_decoding_total_witness :
    (parse_dict_value "Case=Nom|Number=Sing").isSome = true
    ∧ (parse_line "1\tThe\tthe\tDET\t_\tCase=Nom" DEFAULT_FIELDS).isSome = true :=
  ⟨c1_decoding_total_amended.1 "Case=Nom|Number=Sing" (by decide),
   c1_decoding_total_amended.2 "1\tThe\tthe\tDET\t_\tCase=Nom" DEFAULT_FIELDS (by decide)⟩

/-- C5: parsing the standard example line with the ten default fields gives
a record with id 1, form "The", xpostag None, head 4 and deps None. -/
theorem c5_parse_line_round_trip :
    ∃ rec : PRecord,
      parse_line "1\tThe\tthe\tDET\t_\t_\t4\tdet\t_\t_" DEFAULT_FIELDS = some rec
      ∧ rec.lookup "id" = some (.vint 1)
      ∧ rec.lookup "form" = some (.vstr "The")
      ∧ rec.lookup "xpostag" = some .vnone
      ∧ rec.lookup "head" = some (.vint 4)
      ∧ rec.lookup "deps" = some .vnone :=
  ⟨[("id", .vint 1), ("form", .vstr "The"), ("lemma", .vstr "the"),
    ("upostag", .vstr "DET"), ("xpostag", .vnone), ("feats", .vnone),
    ("head", .vint 4), ("deprel", .vstr "det"), ("deps", .vnone), ("misc", .vnone)],
   by decide, by decide, by decide, by decide, by decide, by decide⟩

/-- C6: `parse_dict_value` decodes a two-pair feature column into the
ordered mapping and decodes the underscore placeholder to None. -/
theorem c6_parse_dict_value_examples :
    parse_dict_value "Case=Nom|Number=Sing"
      = some (.vdict [("Case", some "Nom"), ("Number", some "Sing")])
    ∧ parse_dict_value "_" = some .vnone := by decide

/-- C7 (corrected): a six-column line (fewer columns than the ten fields)
whose feats column is `Case=Nom|Bad` makes `parse_line` raise the dict
IndexError instead of returning a partial record. -/
theorem c7_truncated_line_counterexample :
    (splitFields "1\tThe\tthe\tDET\t_\tCase=Nom|Bad").length < DEFAULT_FIELDS.length
    ∧ parse_line "1\tThe\tthe\tDET\t_\tCase=Nom|Bad" DEFAULT_FIELDS = none := by decide

/-- C7 (amended): for distinct field names, whenever `parse_line` returns a
record for a line with k columns, k smaller than the number of fields, the
record holds exactly the first k fields, in field order. -/
theorem c7_truncated_line_amended (line : String) (fields : List String) (rec : PRecord)
    (hnd : fields.Nodup)
    (_hk : (splitFields line).length < fields.length)
    (hp : parse_line line fields = some rec) :
    rec.map Prod.fst = fields.take (splitFields line).length := by
  have hzip : (fields.zip (splitFields line)).map Prod.fst
      = fields.take (splitFields line).length := zip_map_fst fields (splitFields line)
  have hnd2 : ((fields.zip (splitFields line)).map Prod.fst).Nodup := by
    rw [hzip]
    exact hnd.sublist (List.take_sublist _ _)
  have hkeys := parse_line_go_keys (fields.zip (splitFields line)) [] rec hnd2
    (fun k _ p hp' => absurd hp' (List.not_mem_nil p)) hp
  rw [hkeys, hzip]
  simp

/-- C7 witness: the amended statement applied to a two-column line with the
default fields. -/
theorem c7_truncated_line_witness :
    DEFAULT_FIELDS.Nodup
    ∧ (splitFields "1\tThe").length < DEFAULT_FIELDS.length
    ∧ ([("id", Value.vint 1), ("form", Value.vstr "The")] : PRecord).map Prod.fst
      = DEFAULT_FIELDS.take (splitFields "1\tThe").length :=
  ⟨by decide, by decide,
   c7_truncated_line_amended "1\tThe" DEFAULT_FIELDS
     [("id", Value.vint 1), ("form", Value.vstr "The")]
     (by decide) (by decide) (by decide)⟩

/-- C8: two sentences separated by a blank line, each followed by a comment
line, parse to exactly two sentence groups, with no record for the comment
lines. -/
theorem c8_parse_two_sentences :
    parse "1\tHello\n# one\n\n2\tWorld\n# two" DEFAULT_FIELDS
      = some [[[("id", .vint 1), ("form", .vstr "Hello")]],
              [[("id", .vint 2), ("form", .vstr "World")]]] := by decide

/-- C10 (corrected): the text below splits into the three blocks
`["1\tA", "", "2\tB"]`; the middle block's only line is blank, yet the
output contains no empty sentence group — the empty-string block is
dropped by the truthiness filter, refuting the claim as stated. -/
theorem c10_blank_block_counterexample :
    pySplit "1\tA\n\n\n\n2\tB" "\n\n" = ["1\tA", "", "2\tB"]
    ∧ parse "1\tA\n\n\n\n2\tB" DEFAULT_FIELDS
      = some [[[("id", .vint 1), ("form", .vstr "A")]],
              [[("id", .vint 2), ("form", .vstr "B")]]]
    ∧ ([] : List PRecord) ∉ [[[("id", Value.vint 1), ("form", Value.vstr "A")]],
                             [[("id", Value.vint 2), ("form", Value.vstr "B")]]] := by decide

/-- C10 (amended): a block that is a non-empty string and whose every line
is discarded (empty or a comment line) is not dropped: whenever `parse`
returns a result, that result contains an empty sentence group for it. -/
theorem c10_comment_block_amended (text : String) (fields : List String)
    (block : String) (groups : List (List PRecord))
    (hb : block ∈ pySplit text "\n\n")
    (hne : block ≠ "")
    (hlines : ∀ line ∈ pySplit block "\n", keepLine line = false)
    (hp : parse text fields = some groups) :
    [] ∈ groups := by
  have hmem : block ∈ (pySplit text "\n\n").filter (fun s => s != "") := by
    rw [List.mem_filter]
    exact ⟨hb, bne_iff_ne.mpr hne⟩
  have hsent : parseSentence block fields = some [] := by
    unfold parseSentence
    have hfil : (pySplit block "\n").filter keepLine = [] := by
      rw [List.filter_eq_nil_iff]
      intro line hl
      simp [hlines line hl]
    rw [hfil]
    rfl
  exact optMapM_mem _ hp hmem hsent

/-- C10 witness: a document consisting of one comment line parses to a
single empty sentence group. -/
theorem c10_comment_block_witness :
    ("# c" : String) ∈ pySplit "# c" "\n\n"
    ∧ ("# c" : String) ≠ ""
    ∧ ([] : List PRecord) ∈ [([] : List PRecord)] :=
  ⟨by decide, by decide,
   c10_comment_block_amended "# c" DEFAULT_FIELDS "# c" [[]]
     (by decide) (by decide) (by decide) (by decide)⟩

/-! ## Matcher claims -/

/-- C2 (code bug): with the single global pattern `True`, the code as
written falls through the missing `elif` into the equality fallback and
returns false for any token, contradicting its own docstring
(`bool: pat`) and the claim; the documented dispatch returns true. -/
theorem c2_boolean_true_code_eval :
    matchLit demoToken [GPat.boolean true] [] = .ok false
    ∧ matchSpec demoToken [GPat.boolean true] [] = .ok true := ⟨rfl, rfl⟩

/-- C3 (code bug): with global patterns `(compiled pattern, False)`, the
code as written raises `NameError` (the undefined name `arg`) at the
compiled pattern before ever reaching `False`, instead of returning false
regardless of the other patterns; the documented dispatch returns false. -/
theorem c3_false_short_circuit_code_eval :
    matchLit demoToken [GPat.regex "x", GPat.boolean false] [] = .error .nameError
    ∧ matchSpec demoToken [GPat.regex "x", GPat.boolean false] [] = .ok false := ⟨rfl, rfl⟩

/-- C4 (corrected): the claim fails as stated — this token lacks the
attribute "b", yet `matches` returns false rather than raising, because
the earlier attribute pattern on "a" is unsatisfied and short-circuits the
loop before "b" is ever resolved. -/
theorem c4_missing_attr_counterexample :
    lookupAttr ⟨"cat", [("a", PyVal.int 1)]⟩ "b" = .error (.attributeNotFound "b")
    ∧ matchSpec ⟨"cat", [("a", PyVal.int 1)]⟩ []
        [("a", APat.lit (PyVal.int 2)), ("b", APat.lit (PyVal.int 3))] = .ok false :=
  ⟨rfl, rfl⟩

/-- C4 (amended): when every global pattern passes and every attribute
pattern listed before the missing attribute is satisfied by the token's
value, `matches` fails with the `AttributeNotFound` error, which
propagates to the caller: the reached missing attribute is never silently
treated as a non-match. -/
theorem c4_missing_attr_amended (t : Token) (gpats : List GPat)
    (pre : List (String × APat)) (name : String) (p : APat)
    (post : List (String × APat))
    (hg : matchGlobals t gpats = true)
    (hpre : ∀ q ∈ pre, ∃ v, lookupAttr t q.1 = .ok v ∧ apatSatisfied v q.2 = true)
    (hmiss : lookupAttr t name = .error (.attributeNotFound name)) :
    matchSpec t gpats (pre ++ (name, p) :: post) = .error (.attributeNotFound name) := by
  have hattrs : ∀ pre : List (String × APat),
      (∀ q ∈ pre, ∃ v, lookupAttr t q.1 = .ok v ∧ apatSatisfied v q.2 = true) →
      matchAttrs t (pre ++ (name, p) :: post) = .error (.attributeNotFound name) := by
    intro pre
    induction pre with
    | nil =>
      intro _
      simp only [List.nil_append, matchAttrs, hmiss]
    | cons q rest ih =>
      intro hpre'
      obtain ⟨qn, qp⟩ := q
      obtain ⟨v, hv, hs⟩ := hpre' (qn, qp) (by simp)
      dsimp only at hv hs
      simp only [List.cons_append, matchAttrs, hv, hs, if_true]
      exact ih (fun x hx => hpre' x (by simp [hx]))
  unfold matchSpec
  rw [hg]
  simpa using hattrs pre hpre

/-- C4 witness: the amended statement at a token whose attribute "a" is 2
and which has no attribute "b", with the pattern on "a" satisfied. -/
theorem c4_missing_attr_witness :
    matchSpec ⟨"dog", [("a", PyVal.int 2)]⟩ []
      [("a", APat.lit (PyVal.int 2)), ("b", APat.lit (PyVal.int 0))]
      = .error (.attributeNotFound "b") :=
  c4_missing_attr_amended ⟨"dog", [("a", PyVal.int 2)]⟩ [] [("a", APat.lit (PyVal.int 2))]
    "b" (APat.lit (PyVal.int 0)) [] rfl
    (by
      intro q hq
      rw [List.mem_singleton] at hq
      subst hq
      exact ⟨PyVal.int 2, rfl, rfl⟩)
    rfl

/-- C9: with no global patterns and no attribute patterns, both the code
as written and the documented dispatch return true for every token. -/
theorem c9_empty_patterns_vacuous (t : Token) :
    matchLit t [] [] = .ok true ∧ matchSpec t [] [] = .ok true := ⟨rfl, rfl⟩

end TextStuff
